import Mathlib

/-!
Verification development for the vtx-cli WASM plugin packaging pipeline
(`src/packager.rs`).  Byte buffers are modelled as `List Nat` (each entry a
byte value).  The structural walk over the binary (magic header, version
field, section headers with LEB128 sizes, custom-section names) is performed
in the Rust code by the external `wasmparser` crate; it is modelled here from
the Binary Section Scanner / Kind Detector contracts of the spec.  The packaging
logic itself (stripping, import audit, contract validation, orchestration) is
translated directly from `packager.rs`.  Warnings, printed to stdout in the
Rust code, are modelled as explicit warning lists returned by the pipeline.
-/

/-- Byte list of an ASCII string (for ASCII text, UTF-8 bytes coincide with
the character codes). -/
def strBytes (s : String) : List Nat := s.data.map Char.toNat

/-- Error taxonomy of the pipeline, following section 7 of the spec: structural
parse failures, unrecognized encodings, external encoder failures, and
contract violations are distinct kinds. -/
inductive PErr where
  | malformed (msg : String)
  | unsupported (msg : String)
  | encoding (msg : String)
  | contract (msg : String)
deriving Repr, DecidableEq

/-- Predicate picking out the structural-parse-failure errors. -/
def PErr.isMalformed : PErr → Bool
  | .malformed _ => true
  | _ => false

/-- Non-fatal diagnostics the pipeline can emit: the untrusted-import warning
of `validate_user_imports` and the forced-downgrade warning of
`validate_contract_with_force`.  No other warning is produced anywhere in
`packager.rs`. -/
inductive Warning where
  | untrustedImport (module field : String)
  | contractForced (msg : String)
deriving Repr, DecidableEq

/-- Binary kind, decided once per input from the version field of the header. -/
inductive BinaryKind where
  | coreModule
  | component
deriving Repr, DecidableEq

/-- One import entry of a core module: namespace (called `module` in
wasmparser) and field name. -/
structure Import where
  module : String
  field : String
deriving Repr, DecidableEq

/-- Modelled from the spec: LEB128 unsigned-32 decoding as performed by the
external wasmparser when reading section sizes and name lengths.  `fuel`
bounds the number of continuation bytes (initial fuel 4 gives the 5-byte
limit of a u32 varint); the final byte of a 5-byte encoding must have its
high nibble clear.  Returns the decoded value and the number of bytes
consumed. -/
def readVarU32 : Nat → List Nat → Option (Nat × Nat)
  | _, [] => none
  | 0, b :: _ => if b < 16 then some (b, 1) else none
  | fuel + 1, b :: bs =>
    if b < 128 then some (b, 1)
    else
      match readVarU32 fuel bs with
      | none => none
      | some (v, k) => some ((b - 128) + 128 * v, k + 1)

/-- Modelled from the spec: the name of a custom section, read from the front of
the section payload as a LEB128 length followed by that many name bytes. -/
def readName (payload : List Nat) : Option (List Nat) :=
  match readVarU32 4 payload with
  | none => none
  | some (len, k) =>
    if len ≤ (payload.drop k).length then some ((payload.drop k).take len)
    else none

/-- One top-level section of a WASM binary: id byte, the raw LEB128 bytes
that encoded the payload size, and the payload bytes. -/
structure Sec where
  id : Nat
  lebBytes : List Nat
  payload : List Nat
deriving Repr, DecidableEq

/-- Raw byte extent of a section: id byte, size bytes, payload. -/
def Sec.raw (s : Sec) : List Nat := s.id :: (s.lebBytes ++ s.payload)

/-- Name of a custom section (id 0); non-custom sections have no name. -/
def Sec.name (s : Sec) : Option (List Nat) :=
  if s.id = 0 then readName s.payload else none

/-- Concatenation of the raw bytes of a list of sections. -/
def rawConcat : List Sec → List Nat
  | [] => []
  | s :: ss => s.raw ++ rawConcat ss

/-- Modelled from the spec: the walk of the Binary Section Scanner over the bytes
following the 8-byte header.  Each step reads one section: an id byte, a
LEB128 payload size, and the payload; a size that extends past the end of
the buffer is a structural error, as is a custom section whose name cannot
be read.  `fuel` only serves termination; it is initialised to the buffer
length, which each step strictly decreases below. -/
def parseSectionsAux : Nat → List Nat → Except PErr (List Sec)
  | _, [] => .ok []
  | 0, _ :: _ => .error (.malformed "section walk out of fuel")
  | fuel + 1, id :: rest =>
    match readVarU32 4 rest with
    | none => .error (.malformed "invalid or truncated section size")
    | some (size, k) =>
      if size ≤ (rest.drop k).length then
        if id = 0 ∧ (readName ((rest.drop k).take size)).isNone then
          .error (.malformed "invalid custom section name")
        else
          match parseSectionsAux fuel ((rest.drop k).drop size) with
          | .error e => .error e
          | .ok ss => .ok (⟨id, rest.take k, (rest.drop k).take size⟩ :: ss)
      else .error (.malformed "section size extends past the end of the buffer")

/-- Scanner entry point over the bytes following the header. -/
def parseSections (bs : List Nat) : Except PErr (List Sec) :=
  parseSectionsAux bs.length bs

/-- The 4-byte magic of every WASM binary. -/
def wasmMagic : List Nat := [0x00, 0x61, 0x73, 0x6d]

/-- Version field of a core module: version 1, layer 0. -/
def moduleEncodingField : List Nat := [0x01, 0x00, 0x00, 0x00]

/-- Version field of a component: version 13, layer 1. -/
def componentEncodingField : List Nat := [0x0d, 0x00, 0x01, 0x00]

/-- Modelled from the spec: the Kind Detector.  A buffer shorter than the
8-byte header or with a wrong magic is a structural error; the 4-byte field
at offsets 4..8 then classifies the binary as core module or component, and
any other value of that field is an unsupported encoding. -/
def parseHeader (bytes : List Nat) : Except PErr BinaryKind :=
  if bytes.length < 8 then
    .error (.malformed "unexpected end-of-file: buffer shorter than the 8-byte header")
  else if bytes.take 4 ≠ wasmMagic then
    .error (.malformed "magic header not detected")
  else if (bytes.drop 4).take 4 = moduleEncodingField then .ok .coreModule
  else if (bytes.drop 4).take 4 = componentEncodingField then .ok .component
  else .error (.unsupported "unknown binary version and encoding combination")

/-- Translated from `is_component` in `packager.rs`: take the first payload
of the parse (the version payload of the header), propagate its error, and report
whether the encoding is the component encoding.  No section beyond the
header is inspected. -/
def is_component (bytes : List Nat) : Except PErr Bool :=
  match parseHeader bytes with
  | .error e => .error e
  | .ok .component => .ok true
  | .ok .coreModule => .ok false

/-- Name prefix of the custom sections the stripper targets (from
`packager.rs`). -/
def bindgenNameStart : List Nat := strBytes "component-type:wit-bindgen:"

/-- Marker substring the stripper requires in addition to the prefix (from
`packager.rs`). -/
def removedMarker : List Nat := strBytes "with-all-of-its-exports-removed"

/-- Substring test on byte lists, matching the Rust `str::contains` method for ASCII
patterns: some suffix of `xs` has `sub` as a prefix. -/
def containsSub : List Nat → List Nat → Bool
  | [], sub => sub.isEmpty
  | x :: xs, sub => sub.isPrefixOf (x :: xs) || containsSub xs sub

/-- Translated from the keep/drop test of
`strip_exports_removed_bindgen_section`: a custom section is dropped exactly
when its name starts with the wit-bindgen prefix and contains the
exports-removed marker. -/
def shouldStrip (s : Sec) : Bool :=
  match s.name with
  | some n => bindgenNameStart.isPrefixOf n && containsSub n removedMarker
  | none => false

/-- The keep flag of the strip loop in `packager.rs`: a chunk is copied to
the output exactly when it does not qualify for stripping. -/
def keepSec (s : Sec) : Bool := !shouldStrip s

/-- A section is a custom section when its id byte is 0. -/
def isCustomSec (s : Sec) : Bool := s.id == 0

/-- A section is a non-custom section when its id byte is not 0. -/
def nonCustomSec (s : Sec) : Bool := !(s.id == 0)

/-- Translated from `strip_exports_removed_bindgen_section` in `packager.rs`:
walk the chunks of the module (the 8-byte header chunk is always kept), drop
the qualifying custom sections, and copy the raw bytes of every other chunk in
order.  Any structural error of the walk is propagated. -/
def strip_exports_removed_bindgen_section (module : List Nat) : Except PErr (List Nat) :=
  match parseHeader module with
  | .error e => .error e
  | .ok _ =>
    match parseSections (module.drop 8) with
    | .error e => .error e
    | .ok ss => .ok (module.take 8 ++ rawConcat (ss.filter keepSec))

/-- Trusted namespace prefixes for import modules, from
`validate_user_imports` in `packager.rs`. -/
def trusted_namespaces : List String :=
  ["wasi_snapshot_preview1", "wasi:", "vtx:", "vtx", "__wbindgen_"]

/-- The Rust `str::starts_with` method on ASCII strings: character-list prefix. -/
def strStartsWith (s p : String) : Bool := p.data.isPrefixOf s.data

/-- An import namespace is trusted when it starts with any trusted
namespace prefix. -/
def isTrustedImport (module : String) : Bool :=
  trusted_namespaces.any (fun ns => strStartsWith module ns)

/-- Translated from `validate_user_imports` in `packager.rs`: every import
whose namespace is not trusted produces one untrusted-import warning; the
function never fails. -/
def validate_user_imports : List Import → List Warning
  | [] => []
  | i :: rest =>
    if isTrustedImport i.module then validate_user_imports rest
    else .untrustedImport i.module i.field :: validate_user_imports rest

/-- Acceptable export names for the `handle` entrypoint (from the match in
`validate_contract`). -/
def handleAliases : List String :=
  ["handle", "vtx:api/plugin/handle", "vtx:api/plugin#handle"]

/-- Acceptable export names for the `get-manifest` entrypoint. -/
def manifestAliases : List String :=
  ["get-manifest", "vtx:api/plugin/get-manifest", "vtx:api/plugin#get-manifest"]

/-- Acceptable export names for the `get-capabilities` entrypoint. -/
def capabilitiesAliases : List String :=
  ["get-capabilities", "vtx:api/plugin/get-capabilities", "vtx:api/plugin#get-capabilities"]

/-- Translated from `validate_contract` in `packager.rs`, over the list of
component export names: a flag per required entrypoint is set when any
export name is one of its aliases, and the first missing entrypoint (in the
fixed order handle, get-manifest, get-capabilities) raises a contract
violation. -/
def validate_contract (names : List String) : Except PErr Unit :=
  if !(names.any fun n => handleAliases.contains n) then
    .error (.contract "Contract Violation: Missing required export handle.")
  else if !(names.any fun n => manifestAliases.contains n) then
    .error (.contract "Contract Violation: Missing required export get-manifest.")
  else if !(names.any fun n => capabilitiesAliases.contains n) then
    .error (.contract "Contract Violation: Missing required export get-capabilities.")
  else .ok ()

/-- Translated from `validate_contract_with_force` in `packager.rs`: a
contract violation is propagated when `force` is unset and downgraded to a
warning (returning success) when `force` is set. -/
def validate_contract_with_force (names : List String) (force : Bool) :
    Except PErr (List Warning) :=
  match validate_contract names with
  | .ok _ => .ok []
  | .error e =>
    if force then
      .ok [.contractForced "Contract validation failed but --force is enabled"]
    else .error e

/-- Translated from `process_wasm` in `packager.rs`, over an in-memory byte
buffer.  The three external collaborators are parameters: `importsOf` is
the wasmparser enumeration of import entries of a module, `exportsOf` is
the wasmparser enumeration of component export names (both modelled from the
spec, since wasmparser is an external crate; note that in `packager.rs` both
enumerations are consumed through `Iterator::flatten`, which silently drops
parse errors), and `encode` is the external Component Encoder of
`wit_component`.  The result carries the artifact bytes and the warnings
emitted, in emission order. -/
def process_wasm (importsOf : List Nat → List Import)
    (exportsOf : List Nat → List String)
    (encode : List Nat → Except String (List Nat))
    (module_bytes : List Nat) (debug force : Bool) :
    Except PErr (List Nat × List Warning) :=
  match is_component module_bytes with
  | .error e => .error e
  | .ok true =>
    match validate_contract_with_force (exportsOf module_bytes) force with
    | .error e => .error e
    | .ok ws => .ok (module_bytes, ws)
  | .ok false =>
    match strip_exports_removed_bindgen_section module_bytes with
    | .error e => .error e
    | .ok cleaned =>
      let importWs := validate_user_imports (importsOf cleaned)
      match encode cleaned with
      | .error msg =>
        .error (.encoding ("Component encoding error: " ++ msg ++
          " Ensure wit-bindgen version matches adapter requirements."))
      | .ok component_bytes =>
        match validate_contract_with_force (exportsOf component_bytes) force with
        | .error e => .error e
        | .ok ws => .ok (component_bytes, importWs ++ ws)

/-- Stand-in for the import enumeration on a module with no import section. -/
def noImports : List Nat → List Import := fun _ => []

/-- Stand-in for the export enumeration on a component in which no export
entry is successfully parsed. -/
def noExports : List Nat → List String := fun _ => []

/-- Stand-in export enumeration returning all three required entrypoints. -/
def allExports : List Nat → List String :=
  fun _ => ["handle", "get-manifest", "get-capabilities"]

/-- Stand-in Component Encoder that returns its input unchanged. -/
def okEncode : List Nat → Except String (List Nat) := fun bs => .ok bs

/-! ## Scanner lemmas -/

/-- A successful varint read consumes at least one and at most all bytes, and
its result is determined by the consumed prefix alone: appending anything
after that prefix re-reads to the same value and the same consumed count. -/
theorem readVarU32_spec (f : Nat) (xs : List Nat) (v k : Nat)
    (h : readVarU32 f xs = some (v, k)) :
    1 ≤ k ∧ k ≤ xs.length ∧
      ∀ ys, readVarU32 f (xs.take k ++ ys) = some (v, k) := by
  induction xs generalizing f v k with
  | nil => simp [readVarU32] at h
  | cons b bs ih =>
    match f with
    | 0 =>
      rw [readVarU32] at h
      by_cases hb : b < 16
      · rw [if_pos hb] at h
        obtain ⟨hv, hk⟩ : b = v ∧ 1 = k := by
          have := Option.some.inj h; exact ⟨congrArg Prod.fst this, congrArg Prod.snd this⟩
        subst hv; subst hk
        refine ⟨le_refl 1, by simp, ?_⟩
        intro ys
        simp only [List.take_succ_cons, List.take_zero, List.cons_append, readVarU32]
        rw [if_pos hb]
      · rw [if_neg hb] at h; exact absurd h (by simp)
    | f + 1 =>
      rw [readVarU32] at h
      by_cases hb : b < 128
      · rw [if_pos hb] at h
        obtain ⟨hv, hk⟩ : b = v ∧ 1 = k := by
          have := Option.some.inj h; exact ⟨congrArg Prod.fst this, congrArg Prod.snd this⟩
        subst hv; subst hk
        refine ⟨le_refl 1, by simp, ?_⟩
        intro ys
        simp only [List.take_succ_cons, List.take_zero, List.cons_append, readVarU32]
        rw [if_pos hb]
      · rw [if_neg hb] at h
        match hrec : readVarU32 f bs with
        | none => rw [hrec] at h; exact absurd h (by simp)
        | some (v', k') =>
          rw [hrec] at h
          obtain ⟨hv, hk⟩ : (b - 128) + 128 * v' = v ∧ k' + 1 = k := by
            have := Option.some.inj h; exact ⟨congrArg Prod.fst this, congrArg Prod.snd this⟩
          subst hv; subst hk
          obtain ⟨h1, h2, h3⟩ := ih f v' k' hrec
          refine ⟨by omega, by simpa using h2, ?_⟩
          intro ys
          rw [List.take_succ_cons, List.cons_append, readVarU32, if_neg hb, h3 ys]

/-- Well-formedness of a section descriptor: its size bytes decode (with the
varint fuel of a u32) to exactly the payload length, consuming exactly the
size bytes, and a custom section has a readable name. -/
def GoodSec (s : Sec) : Prop :=
  readVarU32 4 s.lebBytes = some (s.payload.length, s.lebBytes.length)
  ∧ (s.id = 0 → (readName s.payload).isSome = true)

/-- Soundness of the section walk: a successful parse decomposes the buffer
into the concatenation of the raw bytes of the returned sections, all of
which are well formed. -/
theorem parseSectionsAux_sound (f : Nat) (bs : List Nat) (ss : List Sec)
    (h : parseSectionsAux f bs = .ok ss) :
    bs = rawConcat ss ∧ ∀ s ∈ ss, GoodSec s := by
  induction f generalizing bs ss with
  | zero =>
    match bs with
    | [] =>
      rw [parseSectionsAux] at h
      obtain rfl : ([] : List Sec) = ss := by simpa using h
      exact ⟨rfl, by simp⟩
    | b :: rest => rw [parseSectionsAux] at h; exact absurd h (by simp)
  | succ f ih =>
    match bs with
    | [] =>
      rw [parseSectionsAux] at h
      obtain rfl : ([] : List Sec) = ss := by simpa using h
      exact ⟨rfl, by simp⟩
    | id :: rest =>
      rw [parseSectionsAux] at h
      match hrv : readVarU32 4 rest with
      | none => rw [hrv] at h; exact absurd h (by simp)
      | some (size, k) =>
        rw [hrv] at h
        simp only [] at h
        by_cases hsz : size ≤ (rest.drop k).length
        · rw [if_pos hsz] at h
          by_cases hname : id = 0 ∧ (readName ((rest.drop k).take size)).isNone
          · rw [if_pos hname] at h; exact absurd h (by simp)
          · rw [if_neg hname] at h
            match hrec : parseSectionsAux f ((rest.drop k).drop size) with
            | .error e => rw [hrec] at h; exact absurd h (by simp)
            | .ok ss' =>
              rw [hrec] at h
              obtain rfl : (⟨id, rest.take k, (rest.drop k).take size⟩ : Sec) :: ss' = ss := by
                simpa using h
              obtain ⟨hdecomp, hgood⟩ := ih ((rest.drop k).drop size) ss' hrec
              obtain ⟨hk1, hk2, hext⟩ := readVarU32_spec 4 rest size k hrv
              constructor
              · show id :: rest = Sec.raw _ ++ rawConcat ss'
                rw [Sec.raw]
                simp only [List.cons_append, List.cons.injEq, true_and]
                rw [← hdecomp, List.append_assoc, List.take_append_drop,
                  List.take_append_drop]
              · intro s hs
                rcases List.mem_cons.mp hs with rfl | hs'
                · constructor
                  · show readVarU32 4 (rest.take k) = _
                    have hlen1 : (rest.take k).length = k := by
                      rw [List.length_take]; omega
                    have hlen2 : ((rest.drop k).take size).length = size := by
                      rw [List.length_take]; omega
                    have := hext []
                    rw [List.append_nil] at this
                    rw [this, hlen1, hlen2]
                  · intro hid
                    show (readName ((rest.drop k).take size)).isSome = true
                    cases hopt : readName ((rest.drop k).take size) with
                    | none => exact absurd ⟨hid, by rw [hopt]; rfl⟩ hname
                    | some n => rfl
                · exact hgood s hs'
        · rw [if_neg hsz] at h; exact absurd h (by simp)

/-- Every section contributes at least one byte (its id byte) to the raw
concatenation. -/
theorem length_le_rawConcat (ss : List Sec) : ss.length ≤ (rawConcat ss).length := by
  induction ss with
  | nil => simp [rawConcat]
  | cons s ss ih =>
    rw [rawConcat, Sec.raw]
    simp only [List.length_cons, List.cons_append, List.length_append]
    omega

/-- Completeness of the section walk: re-parsing the concatenated raw bytes
of well-formed sections returns exactly those sections, for any sufficient
fuel. -/
theorem parseSectionsAux_rawConcat (ss : List Sec) (hgood : ∀ s ∈ ss, GoodSec s)
    (f : Nat) (hf : ss.length ≤ f) :
    parseSectionsAux f (rawConcat ss) = .ok ss := by
  induction ss generalizing f with
  | nil =>
    rw [rawConcat]
    match f with
    | 0 => rw [parseSectionsAux]
    | f + 1 => rw [parseSectionsAux]
  | cons s ss ih =>
    match f with
    | 0 => exact absurd hf (by simp)
    | f + 1 =>
      obtain ⟨hs1, hs2⟩ := hgood s (List.mem_cons_self s ss)
      rw [rawConcat, Sec.raw, List.cons_append, List.append_assoc, parseSectionsAux]
      obtain ⟨hk1, hk2, hext⟩ := readVarU32_spec 4 s.lebBytes s.payload.length
        s.lebBytes.length hs1
      have htake : s.lebBytes.take s.lebBytes.length = s.lebBytes := by simp
      have hrv : readVarU32 4 (s.lebBytes ++ (s.payload ++ rawConcat ss)) =
          some (s.payload.length, s.lebBytes.length) := by
        have := hext (s.payload ++ rawConcat ss)
        rwa [htake] at this
      rw [hrv]
      simp only [List.drop_left, List.take_left]
      have hsz : s.payload.length ≤ (s.payload ++ rawConcat ss).length := by
        rw [List.length_append]; omega
      rw [if_pos hsz]
      have hnamecond : ¬(s.id = 0 ∧ (readName s.payload).isNone = true) := by
        rintro ⟨hid, hn⟩
        have := hs2 hid
        rw [Option.isNone_iff_eq_none.mp hn] at this
        exact absurd this (by simp)
      rw [if_neg hnamecond,
        ih (fun t ht => hgood t (List.mem_cons_of_mem s ht)) f (by simpa using hf)]

/-- The buffer length is always enough fuel for the walk, so `parseSections`
round-trips on the raw concatenation of well-formed sections. -/
theorem parseSections_rawConcat (ss : List Sec) (hgood : ∀ s ∈ ss, GoodSec s) :
    parseSections (rawConcat ss) = .ok ss :=
  parseSectionsAux_rawConcat ss hgood (rawConcat ss).length (length_le_rawConcat ss)

/-- Every error of the section walk is a structural (malformed) error. -/
theorem parseSectionsAux_error (f : Nat) (bs : List Nat) (e : PErr)
    (h : parseSectionsAux f bs = .error e) : e.isMalformed = true := by
  induction f generalizing bs e with
  | zero =>
    match bs with
    | [] => rw [parseSectionsAux] at h; exact absurd h (by simp)
    | b :: rest =>
      rw [parseSectionsAux] at h
      obtain rfl : PErr.malformed "section walk out of fuel" = e := by simpa using h
      rfl
  | succ f ih =>
    match bs with
    | [] => rw [parseSectionsAux] at h; exact absurd h (by simp)
    | id :: rest =>
      rw [parseSectionsAux] at h
      match hrv : readVarU32 4 rest with
      | none =>
        rw [hrv] at h
        obtain rfl : PErr.malformed "invalid or truncated section size" = e := by simpa using h
        rfl
      | some (size, k) =>
        rw [hrv] at h
        simp only [] at h
        by_cases hsz : size ≤ (rest.drop k).length
        · rw [if_pos hsz] at h
          by_cases hname : id = 0 ∧ (readName ((rest.drop k).take size)).isNone
          · rw [if_pos hname] at h
            obtain rfl : PErr.malformed "invalid custom section name" = e := by simpa using h
            rfl
          · rw [if_neg hname] at h
            match hrec : parseSectionsAux f ((rest.drop k).drop size) with
            | .error e' =>
              rw [hrec] at h
              have he : e' = e := by simpa using h
              exact he ▸ ih ((rest.drop k).drop size) e' hrec
            | .ok ss' => rw [hrec] at h; exact absurd h (by simp)
        · rw [if_neg hsz] at h
          obtain rfl : PErr.malformed "section size extends past the end of the buffer" = e := by
            simpa using h
          rfl

/-! ## Stripper lemmas -/

/-- Only custom sections (id 0) can qualify for stripping. -/
theorem shouldStrip_custom (s : Sec) (h : shouldStrip s = true) : s.id = 0 := by
  by_cases hid : s.id = 0
  · exact hid
  · rw [shouldStrip, Sec.name, if_neg hid] at h
    exact absurd h (by simp)

/-- A successful header parse means the buffer holds at least the 8-byte
header. -/
theorem parseHeader_length (bytes : List Nat) (kind : BinaryKind)
    (h : parseHeader bytes = .ok kind) : 8 ≤ bytes.length := by
  by_cases hl : bytes.length < 8
  · rw [parseHeader, if_pos hl] at h; exact absurd h (by simp)
  · omega

/-- The header classification only looks at the first 8 bytes. -/
theorem parseHeader_eq_of_take8 (m m' : List Nat) (h8 : m.take 8 = m'.take 8)
    (hm : 8 ≤ m.length) (hm' : 8 ≤ m'.length) :
    parseHeader m = parseHeader m' := by
  have ht4 : m.take 4 = m'.take 4 := by
    have : (m.take 8).take 4 = (m'.take 8).take 4 := by rw [h8]
    simpa [List.take_take] using this
  have hd4 : (m.drop 4).take 4 = (m'.drop 4).take 4 := by
    have : (m.take 8).drop 4 = (m'.take 8).drop 4 := by rw [h8]
    simpa [List.drop_take] using this
  rw [parseHeader, parseHeader, if_neg (by omega : ¬m.length < 8),
    if_neg (by omega : ¬m'.length < 8), ht4, hd4]

/-- Evaluation of the stripper on a structurally valid module: the output is
the header followed by the raw bytes of the sections that do not qualify for
stripping. -/
theorem strip_ok (m : List Nat) (kind : BinaryKind) (ss : List Sec)
    (hh : parseHeader m = .ok kind) (hs : parseSections (m.drop 8) = .ok ss) :
    strip_exports_removed_bindgen_section m =
      .ok (m.take 8 ++ rawConcat (ss.filter keepSec)) := by
  rw [strip_exports_removed_bindgen_section, hh]
  simp only []
  rw [hs]

/-- Dropping the 8 header bytes of a strip output exposes exactly the raw
bytes of the kept sections. -/
theorem strip_out_drop8 (m r : List Nat) (hm : 8 ≤ m.length) :
    (m.take 8 ++ r).drop 8 = r ∧ (m.take 8 ++ r).take 8 = m.take 8 ∧
      8 ≤ (m.take 8 ++ r).length := by
  have hlen8 : (m.take 8).length = 8 := by rw [List.length_take]; omega
  refine ⟨?_, ?_, ?_⟩
  · nth_rewrite 1 [← hlen8]
    rw [List.drop_left]
  · nth_rewrite 1 [← hlen8]
    rw [List.take_left]
  · rw [List.length_append]; omega

/-- Counting helper: when `q` implies `p`, the `p`-count splits into the
`q`-count plus the count of elements satisfying `p` but not `q`. -/
theorem length_filter_split {α : Type} (p q : α → Bool)
    (hpq : ∀ a, q a = true → p a = true) (l : List α) :
    (l.filter p).length =
      (l.filter q).length + (l.filter (fun a => p a && !q a)).length := by
  induction l with
  | nil => simp
  | cons a l ih =>
    by_cases hq : q a = true
    · have hp := hpq a hq
      rw [List.filter_cons_of_pos hp, List.filter_cons_of_pos hq,
        List.filter_cons_of_neg (by simp [hp, hq])]
      simp only [List.length_cons]
      omega
    · have hq' : q a = false := by revert hq; cases q a <;> simp
      by_cases hp : p a = true
      · rw [List.filter_cons_of_pos hp, List.filter_cons_of_neg (by simp [hq']),
          List.filter_cons_of_pos (by simp [hp, hq'])]
        simp only [List.length_cons]
        omega
      · have hp' : p a = false := by revert hp; cases p a <;> simp
        rw [List.filter_cons_of_neg (by simp [hp']),
          List.filter_cons_of_neg (by simp [hq']),
          List.filter_cons_of_neg (by simp [hp'])]
        exact ih

/-! ## Contract-validator lemmas -/

/-- If some required entrypoint has none of its aliases among the export
names, the validator reports a contract violation. -/
theorem validate_contract_error_of_missing (names : List String)
    (h : (names.any fun n => handleAliases.contains n) = false ∨
         (names.any fun n => manifestAliases.contains n) = false ∨
         (names.any fun n => capabilitiesAliases.contains n) = false) :
    ∃ msg, validate_contract names = .error (.contract msg) := by
  rw [validate_contract]
  rcases h with h | h | h
  · rw [h]
    exact ⟨_, rfl⟩
  · match h1 : (names.any fun n => handleAliases.contains n) with
    | false => exact ⟨_, rfl⟩
    | true => rw [h]; exact ⟨_, rfl⟩
  · match h1 : (names.any fun n => handleAliases.contains n) with
    | false => exact ⟨_, rfl⟩
    | true =>
      match h2 : (names.any fun n => manifestAliases.contains n) with
      | false => exact ⟨_, rfl⟩
      | true => rw [h]; exact ⟨_, rfl⟩

/-! ## Shared concrete inputs for witnesses -/

/-- The 8-byte header of a minimal core module. -/
def coreHeader8 : List Nat := [0x00, 0x61, 0x73, 0x6d, 0x01, 0x00, 0x00, 0x00]

/-- The 8-byte header of a component. -/
def compHeader8 : List Nat := [0x00, 0x61, 0x73, 0x6d, 0x0d, 0x00, 0x01, 0x00]

/-- A custom-section name that shares the wit-bindgen name prefix but lacks
the exports-removed marker. -/
def collidingName : List Nat := strBytes "component-type:wit-bindgen:x"

/-- Core module holding one custom section named `collidingName`. -/
def collidingModule : List Nat := coreHeader8 ++ [0, 29, 28] ++ collidingName

/-- A custom-section name that qualifies for stripping: the wit-bindgen
prefix followed by the exports-removed marker. -/
def strippableName : List Nat :=
  strBytes "component-type:wit-bindgen:with-all-of-its-exports-removed"

/-- Core module with three sections: a strippable custom section, a type
section, and the colliding custom section. -/
def demoModule : List Nat :=
  coreHeader8 ++ ([0, 59, 58] ++ strippableName) ++ ([1, 1, 0] ++ ([0, 29, 28] ++ collidingName))

/-- The three sections of `demoModule`, in order. -/
def demoSecs : List Sec :=
  [⟨0, [59], 58 :: strippableName⟩, ⟨1, [1], [0]⟩, ⟨0, [29], 28 :: collidingName⟩]

/-- A header whose version field is neither the module nor the component
encoding. -/
def unknownEncBytes : List Nat := [0x00, 0x61, 0x73, 0x6d, 9, 9, 9, 9]

/-- A component-headed buffer whose single section declares a 5-byte payload
that extends past the end of the buffer. -/
def badComponentBytes : List Nat := compHeader8 ++ [1, 5]

/-! ## Claims -/

/-- C10: an import whose namespace merely begins with the three characters
vtx — including namespaces that are not the SDK namespace, such as
vtxother:lib — is classified as trusted by the Import Auditor and produces
no untrusted-import warning, because the legacy compatibility entry "vtx" of
the trusted-namespace list subsumes the official "vtx:" entry under
starts-with matching. -/
theorem C10_vtx_legacy_trust (imports : List Import) (i : Import)
    (hmem : i ∈ imports) (hpre : strStartsWith i.module "vtx" = true) :
    isTrustedImport i.module = true ∧
      Warning.untrustedImport i.module i.field ∉ validate_user_imports imports := by
  have htrust : isTrustedImport i.module = true := by
    rw [isTrustedImport, trusted_namespaces]
    simp only [List.any_cons, List.any_nil, Bool.or_eq_true]
    tauto
  refine ⟨htrust, ?_⟩
  clear hmem
  induction imports with
  | nil => simp [validate_user_imports]
  | cons j rest ih =>
    by_cases hj : isTrustedImport j.module = true
    · rw [validate_user_imports, if_pos hj]
      exact ih
    · rw [validate_user_imports, if_neg hj]
      intro hmem'
      rcases List.mem_cons.mp hmem' with heq | hmem''
      · have : j.module = i.module := by
          injection heq with h1 h2
          exact h1.symm
        rw [this] at hj
        exact hj htrust
      · exact ih hmem''

/-- Witness for C10 at the concrete import vtxother:lib::foo. -/
theorem C10_vtx_legacy_trust_witness :
    (⟨"vtxother:lib", "foo"⟩ : Import) ∈ [(⟨"vtxother:lib", "foo"⟩ : Import)] ∧
      strStartsWith "vtxother:lib" "vtx" = true ∧
      (isTrustedImport "vtxother:lib" = true ∧
        Warning.untrustedImport "vtxother:lib" "foo" ∉
          validate_user_imports [(⟨"vtxother:lib", "foo"⟩ : Import)]) :=
  ⟨by decide, by decide,
    C10_vtx_legacy_trust [(⟨"vtxother:lib", "foo"⟩ : Import)] ⟨"vtxother:lib", "foo"⟩
      (by decide) (by decide)⟩

/-- C8: the Import Auditor never aborts the pipeline.  First conjunct: the
warnings it produces are exactly one untrusted-import warning, naming the
namespace and field, per import whose namespace does not start with any
trusted-namespace prefix.  Second conjunct: the success or failure of
`process_wasm` and its output bytes are entirely independent of the import
enumeration the auditor consumes. -/
theorem C8_import_auditor_advisory :
    (∀ imports : List Import,
      validate_user_imports imports =
        (imports.filter fun i => !isTrustedImport i.module).map
          (fun i => Warning.untrustedImport i.module i.field)) ∧
    (∀ (importsOf importsOf' : List Nat → List Import)
        (exportsOf : List Nat → List String)
        (encode : List Nat → Except String (List Nat))
        (bytes : List Nat) (debug force : Bool),
      (process_wasm importsOf exportsOf encode bytes debug force).map Prod.fst =
        (process_wasm importsOf' exportsOf encode bytes debug force).map Prod.fst) := by
  constructor
  · intro imports
    induction imports with
    | nil => rfl
    | cons i rest ih =>
      by_cases hi : isTrustedImport i.module = true
      · rw [validate_user_imports, if_pos hi, ih,
          List.filter_cons_of_neg (by simp [hi])]
      · have hif : isTrustedImport i.module = false := by
          revert hi; cases isTrustedImport i.module <;> simp
        rw [validate_user_imports, if_neg hi, ih,
          List.filter_cons_of_pos (by simp [hif]), List.map_cons]
  · intro importsOf importsOf' exportsOf encode bytes debug force
    rw [process_wasm, process_wasm]
    match hic : is_component bytes with
    | .error e => rfl
    | .ok true => rfl
    | .ok false =>
      simp only []
      match hst : strip_exports_removed_bindgen_section bytes with
      | .error e => rfl
      | .ok cleaned =>
        simp only []
        match henc : encode cleaned with
        | .error msg => rfl
        | .ok component_bytes =>
          simp only []
          match hv : validate_contract_with_force (exportsOf component_bytes) force with
          | .error e => rfl
          | .ok ws => rfl

/-- C2: whenever the input is classified as a Component and `process_wasm`
succeeds (including under a force-downgraded contract check), the output
bytes equal the input byte for byte: the fast path applies no stripping,
auditing, adapter injection, or re-encoding. -/
theorem C2_fast_path_invariance (importsOf : List Nat → List Import)
    (exportsOf : List Nat → List String)
    (encode : List Nat → Except String (List Nat))
    (bytes out : List Nat) (ws : List Warning) (debug force : Bool)
    (hcomp : is_component bytes = .ok true)
    (hrun : process_wasm importsOf exportsOf encode bytes debug force = .ok (out, ws)) :
    out = bytes := by
  rw [process_wasm, hcomp] at hrun
  simp only [] at hrun
  match hv : validate_contract_with_force (exportsOf bytes) force with
  | .error e => rw [hv] at hrun; exact absurd hrun (by simp)
  | .ok ws' =>
    rw [hv] at hrun
    have : bytes = out ∧ ws' = ws := by simpa using hrun
    exact this.1.symm

/-- Witness for C2 on a minimal component header validated under force. -/
theorem C2_fast_path_invariance_witness :
    is_component compHeader8 = .ok true ∧
      process_wasm noImports allExports okEncode compHeader8 false false =
        .ok (compHeader8, []) ∧
      compHeader8 = compHeader8 :=
  ⟨rfl, rfl,
    C2_fast_path_invariance noImports allExports okEncode compHeader8 compHeader8 []
      false false rfl rfl⟩

/-- C6: structural and encoding failures are returned unchanged for every
value of the force flag.  If kind detection fails, its error is the result;
if the input is a core module and the strip walk fails, its error is the
result; if the external encoder fails, the encoding error is the result.
The force flag never affects these outcomes. -/
theorem C6_structural_errors_ignore_force (importsOf : List Nat → List Import)
    (exportsOf : List Nat → List String)
    (encode : List Nat → Except String (List Nat))
    (bytes : List Nat) (debug force : Bool) :
    (∀ e, is_component bytes = .error e →
      process_wasm importsOf exportsOf encode bytes debug force = .error e) ∧
    (∀ e, is_component bytes = .ok false →
      strip_exports_removed_bindgen_section bytes = .error e →
      process_wasm importsOf exportsOf encode bytes debug force = .error e) ∧
    (∀ cleaned msg, is_component bytes = .ok false →
      strip_exports_removed_bindgen_section bytes = .ok cleaned →
      encode cleaned = .error msg →
      process_wasm importsOf exportsOf encode bytes debug force =
        .error (.encoding ("Component encoding error: " ++ msg ++
          " Ensure wit-bindgen version matches adapter requirements."))) := by
  refine ⟨?_, ?_, ?_⟩
  · intro e hic
    rw [process_wasm, hic]
  · intro e hic hst
    rw [process_wasm, hic]
    simp only []
    rw [hst]
  · intro cleaned msg hic hst henc
    rw [process_wasm, hic]
    simp only []
    rw [hst]
    simp only []
    rw [henc]

/-- Witness for C6 on the empty buffer, whose kind detection fails. -/
theorem C6_structural_errors_ignore_force_witness :
    is_component [] =
      .error (.malformed "unexpected end-of-file: buffer shorter than the 8-byte header") ∧
      process_wasm noImports noExports okEncode [] false true =
        .error (.malformed "unexpected end-of-file: buffer shorter than the 8-byte header") :=
  ⟨rfl,
    (C6_structural_errors_ignore_force noImports noExports okEncode [] false true).1
      (.malformed "unexpected end-of-file: buffer shorter than the 8-byte header") rfl⟩

/-- C5: for a buffer with the WASM magic and at least the 8-byte header, the
Kind Detector classifies by the 4-byte field at offsets 4..8: the module
encoding yields CoreModule, the component encoding yields Component, and any
other value makes the pipeline fail with an UnsupportedBinaryError, a
constructor distinct from the structural MalformedBinaryError. -/
theorem C5_kind_detector_classification (bytes : List Nat)
    (hlen : 8 ≤ bytes.length) (hmagic : bytes.take 4 = wasmMagic) :
    ((bytes.drop 4).take 4 = moduleEncodingField → is_component bytes = .ok false) ∧
    ((bytes.drop 4).take 4 = componentEncodingField → is_component bytes = .ok true) ∧
    ((bytes.drop 4).take 4 ≠ moduleEncodingField →
      (bytes.drop 4).take 4 ≠ componentEncodingField →
      ∀ (importsOf : List Nat → List Import) (exportsOf : List Nat → List String)
        (encode : List Nat → Except String (List Nat)) (debug force : Bool),
        process_wasm importsOf exportsOf encode bytes debug force =
          .error (.unsupported "unknown binary version and encoding combination")) ∧
    (∀ m m', PErr.unsupported m ≠ PErr.malformed m') := by
  have hnl : ¬bytes.length < 8 := by omega
  have hnm : ¬bytes.take 4 ≠ wasmMagic := by simp [hmagic]
  refine ⟨?_, ?_, ?_, ?_⟩
  · intro hmod
    rw [is_component, parseHeader, if_neg hnl, if_neg hnm, if_pos hmod]
  · intro hcompf
    by_cases hmod : (bytes.drop 4).take 4 = moduleEncodingField
    · rw [hmod] at hcompf
      exact absurd hcompf (by decide)
    · rw [is_component, parseHeader, if_neg hnl, if_neg hnm, if_neg hmod, if_pos hcompf]
  · intro hmod hcompf importsOf exportsOf encode debug force
    rw [process_wasm, is_component, parseHeader, if_neg hnl, if_neg hnm,
      if_neg hmod, if_neg hcompf]
  · intro m m' h
    cases h

/-- Witness for C5 on a buffer whose version field is 09 09 09 09. -/
theorem C5_kind_detector_classification_witness :
    8 ≤ unknownEncBytes.length ∧ unknownEncBytes.take 4 = wasmMagic ∧
      process_wasm noImports noExports okEncode unknownEncBytes false true =
        .error (.unsupported "unknown binary version and encoding combination") :=
  ⟨by decide, by decide,
    (C5_kind_detector_classification unknownEncBytes (by decide) (by decide)).2.2.1
      (by decide) (by decide) noImports noExports okEncode false true⟩

/-- C1: for a Component input in which at least one required logical
entrypoint (handle, get-manifest, get-capabilities) has none of its
acceptable alias names among the component exports, `process_wasm` with
force unset returns the contract-violation error, and with force set it
succeeds, emits the forced-downgrade warning, and returns the input artifact
anyway. -/
theorem C1_contract_gate (importsOf : List Nat → List Import)
    (exportsOf : List Nat → List String)
    (encode : List Nat → Except String (List Nat))
    (bytes : List Nat) (debug : Bool)
    (hcomp : is_component bytes = .ok true)
    (hmiss : ((exportsOf bytes).any fun n => handleAliases.contains n) = false ∨
             ((exportsOf bytes).any fun n => manifestAliases.contains n) = false ∨
             ((exportsOf bytes).any fun n => capabilitiesAliases.contains n) = false) :
    (∃ msg, process_wasm importsOf exportsOf encode bytes debug false =
      .error (.contract msg)) ∧
    process_wasm importsOf exportsOf encode bytes debug true =
      .ok (bytes, [.contractForced "Contract validation failed but --force is enabled"]) := by
  obtain ⟨msg, hvc⟩ := validate_contract_error_of_missing (exportsOf bytes) hmiss
  constructor
  · refine ⟨msg, ?_⟩
    rw [process_wasm, hcomp]
    simp only []
    rw [validate_contract_with_force, hvc]
    simp
  · rw [process_wasm, hcomp]
    simp only []
    rw [validate_contract_with_force, hvc]
    simp

/-- Witness for C1 on a bare component header with no exports at all. -/
theorem C1_contract_gate_witness :
    is_component compHeader8 = .ok true ∧
      ((noExports compHeader8).any fun n => handleAliases.contains n) = false ∧
      (∃ msg, process_wasm noImports noExports okEncode compHeader8 false false =
        .error (.contract msg)) ∧
      process_wasm noImports noExports okEncode compHeader8 false true =
        .ok (compHeader8,
          [.contractForced "Contract validation failed but --force is enabled"]) := by
  refine ⟨rfl, rfl, ?_⟩
  exact C1_contract_gate noImports noExports okEncode compHeader8 false rfl (Or.inl rfl)

/-- C4 (amended): a custom section whose name starts with the wit-bindgen
prefix but does not contain the exports-removed marker is preserved in the
output of the Metadata Stripper.  No warning is produced for it: the code
has no unhandled-section warning channel and keeps the section silently. -/
theorem C4_colliding_section_kept (m : List Nat) (ss : List Sec) (s : Sec)
    (n : List Nat)
    (hh : parseHeader m = .ok .coreModule)
    (hs : parseSections (m.drop 8) = .ok ss)
    (hmem : s ∈ ss)
    (hname : s.name = some n)
    (hpre : bindgenNameStart.isPrefixOf n = true)
    (hmarker : containsSub n removedMarker = false) :
    ∃ out, strip_exports_removed_bindgen_section m = .ok out ∧
      ∃ outSecs, parseSections (out.drop 8) = .ok outSecs ∧ s ∈ outSecs := by
  obtain ⟨hdecomp, hgood⟩ := parseSectionsAux_sound _ _ _ hs
  have hm8 := parseHeader_length m _ hh
  have hnostrip : shouldStrip s = false := by
    rw [shouldStrip, hname]
    simp [hpre, hmarker]
  have hkeptgood : ∀ t ∈ ss.filter keepSec, GoodSec t :=
    fun t ht => hgood t (List.mem_of_mem_filter ht)
  obtain ⟨hdrop, htake, hlen⟩ :=
    strip_out_drop8 m (rawConcat (ss.filter keepSec)) hm8
  refine ⟨_, strip_ok m _ ss hh hs, ss.filter keepSec, ?_, ?_⟩
  · rw [hdrop]
    exact parseSections_rawConcat _ hkeptgood
  · exact List.mem_filter.mpr ⟨hmem, by simp [keepSec, hnostrip]⟩

/-- Counterexample for C4 as stated: on the concrete module holding exactly
one custom section whose name has the prefix but not the marker, the
stripper returns the module unchanged and the full pipeline succeeds with an
empty warning list — the section is silently kept, and no distinct
"unhandled" warning channel exists in the code. -/
theorem C4_colliding_section_counterexample :
    strip_exports_removed_bindgen_section collidingModule = .ok collidingModule ∧
      process_wasm noImports allExports okEncode collidingModule false false =
        .ok (collidingModule, []) := by
  exact ⟨rfl, rfl⟩

/-- C9 (amended): a buffer shorter than the 8-byte header fails with the
malformed-header error before any stage logic runs, for every value of the
flags and every choice of the external collaborators; and when a CoreModule
input has a section walk failure (such as a section size extending past the
end of the buffer), that structural error is the result of the pipeline and
it is a MalformedBinaryError.  (For Component-classified inputs no section
walk is performed; see the counterexample.) -/
theorem C9_malformed_rejection (importsOf : List Nat → List Import)
    (exportsOf : List Nat → List String)
    (encode : List Nat → Except String (List Nat))
    (bytes : List Nat) (debug force : Bool) :
    (bytes.length < 8 →
      process_wasm importsOf exportsOf encode bytes debug force =
        .error (.malformed "unexpected end-of-file: buffer shorter than the 8-byte header")) ∧
    (∀ e, is_component bytes = .ok false →
      parseSections (bytes.drop 8) = .error e →
      process_wasm importsOf exportsOf encode bytes debug force = .error e ∧
        e.isMalformed = true) := by
  constructor
  · intro hshort
    rw [process_wasm, is_component, parseHeader, if_pos hshort]
  · intro e hic hsec
    have hkind : parseHeader bytes = .ok .coreModule := by
      rw [is_component] at hic
      match hph : parseHeader bytes with
      | .error e' => rw [hph] at hic; exact absurd hic (by simp)
      | .ok .component => rw [hph] at hic; exact absurd hic (by simp)
      | .ok .coreModule => rfl
    have hstrip : strip_exports_removed_bindgen_section bytes = .error e := by
      rw [strip_exports_removed_bindgen_section, hkind]
      simp only []
      rw [hsec]
    constructor
    · rw [process_wasm, hic]
      simp only []
      rw [hstrip]
    · exact parseSectionsAux_error _ _ _ hsec

/-- Witness for C9 on the 4-byte truncated magic buffer. -/
theorem C9_malformed_rejection_witness :
    ([0x00, 0x61, 0x73, 0x6d] : List Nat).length < 8 ∧
      process_wasm noImports noExports okEncode [0x00, 0x61, 0x73, 0x6d] false true =
        .error (.malformed "unexpected end-of-file: buffer shorter than the 8-byte header") :=
  ⟨by decide,
    (C9_malformed_rejection noImports noExports okEncode [0x00, 0x61, 0x73, 0x6d]
      false true).1 (by decide)⟩

/-- Counterexample for C9 as stated: `badComponentBytes` is a buffer whose
single section header declares a length extending past the end of the
buffer, yet because its header classifies it as a Component the pipeline
never walks its sections: it fails with a ContractViolationError — not a
MalformedBinaryError — and under force it even succeeds, returning the
malformed buffer. -/
theorem C9_malformed_rejection_counterexample :
    process_wasm noImports noExports okEncode badComponentBytes false false =
      .error (.contract "Contract Violation: Missing required export handle.") ∧
    (∀ msg, PErr.contract "Contract Violation: Missing required export handle." ≠
      PErr.malformed msg) ∧
    process_wasm noImports noExports okEncode badComponentBytes false true =
      .ok (badComponentBytes,
        [.contractForced "Contract validation failed but --force is enabled"]) := by
  refine ⟨rfl, ?_, rfl⟩
  intro msg h
  cases h

/-- Witness for C4 (amended) on the concrete colliding module. -/
theorem C4_colliding_section_kept_witness :
    parseHeader collidingModule = .ok .coreModule ∧
      parseSections (collidingModule.drop 8) = .ok [⟨0, [29], 28 :: collidingName⟩] ∧
      (⟨0, [29], 28 :: collidingName⟩ : Sec) ∈ [(⟨0, [29], 28 :: collidingName⟩ : Sec)] ∧
      (⟨0, [29], 28 :: collidingName⟩ : Sec).name = some collidingName ∧
      bindgenNameStart.isPrefixOf collidingName = true ∧
      containsSub collidingName removedMarker = false ∧
      (∃ out, strip_exports_removed_bindgen_section collidingModule = .ok out ∧
        ∃ outSecs, parseSections (out.drop 8) = .ok outSecs ∧
          (⟨0, [29], 28 :: collidingName⟩ : Sec) ∈ outSecs) :=
  ⟨rfl, rfl, by simp, rfl, by decide, by decide,
    C4_colliding_section_kept collidingModule [⟨0, [29], 28 :: collidingName⟩]
      ⟨0, [29], 28 :: collidingName⟩ collidingName rfl rfl (by simp) rfl
      (by decide) (by decide)⟩

/-- Splitting the custom-section count of a module around the stripper: the
kept custom sections number exactly the custom sections minus the qualifying
ones. -/
theorem strip_count_split (ss : List Sec) :
    (ss.filter shouldStrip).length ≤ (ss.filter isCustomSec).length ∧
    ((ss.filter keepSec).filter isCustomSec).length =
      (ss.filter isCustomSec).length - (ss.filter shouldStrip).length := by
  induction ss with
  | nil => simp
  | cons s ss ih =>
    obtain ⟨ih1, ih2⟩ := ih
    by_cases hstrip : shouldStrip s = true
    · have hid : isCustomSec s = true := by
        simp [isCustomSec, shouldStrip_custom s hstrip]
      have hkeep : ¬keepSec s = true := by simp [keepSec, hstrip]
      rw [List.filter_cons_of_pos hstrip, List.filter_cons_of_pos hid,
        List.filter_cons_of_neg hkeep]
      simp only [List.length_cons]
      omega
    · have hkeep : keepSec s = true := by
        revert hstrip; rw [keepSec]; cases shouldStrip s <;> simp
      by_cases hid : isCustomSec s = true
      · rw [List.filter_cons_of_neg hstrip, List.filter_cons_of_pos hkeep,
          List.filter_cons_of_pos hid, List.filter_cons_of_pos hid]
        simp only [List.length_cons]
        omega
      · rw [List.filter_cons_of_neg hstrip, List.filter_cons_of_pos hkeep,
          List.filter_cons_of_neg hid, List.filter_cons_of_neg hid]
        exact ⟨ih1, ih2⟩

/-- The stripper never touches non-custom sections: filtering them out of the
kept sections gives exactly the non-custom sections of the input. -/
theorem strip_preserves_noncustom (ss : List Sec) :
    (ss.filter keepSec).filter nonCustomSec = ss.filter nonCustomSec := by
  induction ss with
  | nil => rfl
  | cons s ss ih =>
    by_cases hstrip : shouldStrip s = true
    · have hkeep : ¬keepSec s = true := by simp [keepSec, hstrip]
      have hnc : ¬nonCustomSec s = true := by
        simp [nonCustomSec, shouldStrip_custom s hstrip]
      rw [List.filter_cons_of_neg hkeep, List.filter_cons_of_neg hnc, ih]
    · have hkeep : keepSec s = true := by
        revert hstrip; rw [keepSec]; cases shouldStrip s <;> simp
      by_cases hnc : nonCustomSec s = true
      · rw [List.filter_cons_of_pos hkeep, List.filter_cons_of_pos hnc,
          List.filter_cons_of_pos hnc, ih]
      · rw [List.filter_cons_of_pos hkeep, List.filter_cons_of_neg hnc,
          List.filter_cons_of_neg hnc, ih]

/-- C3: on a structurally valid CoreModule whose section walk yields `ss`,
the stripper succeeds and its output re-parses to exactly the sections that
do not qualify for stripping: the output holds N - K custom sections when
the input holds N custom sections of which K qualify, and the non-custom
sections are byte-identical (as section records) and in their original
relative order. -/
theorem C3_section_count_conservation (m : List Nat) (ss : List Sec)
    (hh : parseHeader m = .ok .coreModule)
    (hs : parseSections (m.drop 8) = .ok ss) :
    ∃ out, strip_exports_removed_bindgen_section m = .ok out ∧
      parseSections (out.drop 8) = .ok (ss.filter keepSec) ∧
      out.take 8 = m.take 8 ∧
      ((ss.filter keepSec).filter isCustomSec).length =
        (ss.filter isCustomSec).length - (ss.filter shouldStrip).length ∧
      (ss.filter keepSec).filter nonCustomSec = ss.filter nonCustomSec := by
  obtain ⟨hdecomp, hgood⟩ := parseSectionsAux_sound _ _ _ hs
  have hm8 := parseHeader_length m _ hh
  have hkeptgood : ∀ t ∈ ss.filter keepSec, GoodSec t :=
    fun t ht => hgood t (List.mem_of_mem_filter ht)
  obtain ⟨hdrop, htake, hlen⟩ := strip_out_drop8 m (rawConcat (ss.filter keepSec)) hm8
  refine ⟨_, strip_ok m _ ss hh hs, ?_, htake, (strip_count_split ss).2,
    strip_preserves_noncustom ss⟩
  rw [hdrop]
  exact parseSections_rawConcat _ hkeptgood

/-- Witness for C3 on the concrete three-section demo module (two custom
sections of which one qualifies, and one type section). -/
theorem C3_section_count_conservation_witness :
    parseHeader demoModule = .ok .coreModule ∧
      parseSections (demoModule.drop 8) = .ok demoSecs ∧
      (∃ out, strip_exports_removed_bindgen_section demoModule = .ok out ∧
        parseSections (out.drop 8) = .ok (demoSecs.filter keepSec) ∧
        out.take 8 = demoModule.take 8 ∧
        ((demoSecs.filter keepSec).filter isCustomSec).length =
          (demoSecs.filter isCustomSec).length -
            (demoSecs.filter shouldStrip).length ∧
        (demoSecs.filter keepSec).filter nonCustomSec =
          demoSecs.filter nonCustomSec) :=
  ⟨rfl, rfl, C3_section_count_conservation demoModule demoSecs rfl rfl⟩

/-- C7: the Metadata Stripper is idempotent on every structurally valid
CoreModule: its output strips to itself. -/
theorem C7_strip_idempotent (m : List Nat) (ss : List Sec)
    (hh : parseHeader m = .ok .coreModule)
    (hs : parseSections (m.drop 8) = .ok ss) :
    ∃ out, strip_exports_removed_bindgen_section m = .ok out ∧
      strip_exports_removed_bindgen_section out = .ok out := by
  obtain ⟨hdecomp, hgood⟩ := parseSectionsAux_sound _ _ _ hs
  have hm8 := parseHeader_length m _ hh
  have hkeptgood : ∀ t ∈ ss.filter keepSec, GoodSec t :=
    fun t ht => hgood t (List.mem_of_mem_filter ht)
  obtain ⟨hdrop, htake, hlen⟩ := strip_out_drop8 m (rawConcat (ss.filter keepSec)) hm8
  have hhout : parseHeader (m.take 8 ++ rawConcat (ss.filter keepSec)) =
      .ok .coreModule := by
    rw [parseHeader_eq_of_take8 _ m htake hlen hm8, hh]
  have hsout : parseSections ((m.take 8 ++ rawConcat (ss.filter keepSec)).drop 8) =
      .ok (ss.filter keepSec) := by
    rw [hdrop]
    exact parseSections_rawConcat _ hkeptgood
  refine ⟨_, strip_ok m _ ss hh hs, ?_⟩
  rw [strip_ok _ _ _ hhout hsout, htake]
  have hfix : (ss.filter keepSec).filter keepSec = ss.filter keepSec :=
    List.filter_eq_self.mpr (fun a ha => (List.mem_filter.mp ha).2)
  rw [hfix]

/-- Witness for C7 on the concrete demo module. -/
theorem C7_strip_idempotent_witness :
    parseHeader demoModule = .ok .coreModule ∧
      parseSections (demoModule.drop 8) = .ok demoSecs ∧
      (∃ out, strip_exports_removed_bindgen_section demoModule = .ok out ∧
        strip_exports_removed_bindgen_section out = .ok out) :=
  ⟨rfl, rfl, C7_strip_idempotent demoModule demoSecs rfl rfl⟩
